import Mathlib

/-!
Verification development for the calibrator-table module of vermeerkat
(file vermeerkat/caltable_parser.py).

The module has three functions:

  * read_caltable: a line-oriented parser for a calibrator catalog.  Each
    non-comment, non-blank line must match a fixed regular expression; the
    sexagesimal RA and declination tokens are re-parsed by two inner regular
    expressions, the numeric fields go through float(), and the MHz polynomial
    coefficients are re-based to GHz with k = log10(1000).
  * format_calibrator_db: a purely presentational formatter.
  * convert_pb_to_casaspi: a range guard, a reference flux evaluation, and a
    nonlinear least-squares fit performed by the external scipy curve_fit.

Modelling conventions used throughout this file:

  * Python floats are modelled by exact real (resp. rational) arithmetic.
    The parse-time numeric computations are carried out in Q so that they are
    kernel-reducible; the transcendental parts (deg2rad, log10, 10 ** x) live
    in noncomputable real-valued views on top of the rational core.
  * The field operations of Rat (Rat.add etc.) do not reduce inside the
    kernel, so the embedding computes with divInt-based operations qAdd, qMul,
    qDiv, qNeg which are proved equal to the field operations below.
  * The Python regular expressions are modelled by a backtracking matcher in
    the list-of-successes style.  Candidate splits are generated in exactly
    the order the Python engine explores them (greedy quantifiers longest
    first, optional groups present first), and the overall match is the first
    success of the depth-first search, so captured groups agree with re.match.
  * Exceptions are modelled by explicit result constructors: RuntimeError from
    the grammar check carries the 1-based line number and the raw line text;
    float() failures are ValueError; a failed inner coordinate match would be
    an AttributeError (None.group) in Python.
-/

/-! ## Exact rational operations (kernel-reducible) -/

/-- Executable rational addition.  Provably equal to the field addition on Q
(theorem qAdd_eq); used because Rat.add does not reduce inside the kernel. -/
def qAdd (a b : ℚ) : ℚ := Rat.divInt (a.num * b.den + b.num * a.den) (a.den * b.den)

/-- Executable rational multiplication; provably equal to the field one. -/
def qMul (a b : ℚ) : ℚ := Rat.divInt (a.num * b.num) (a.den * b.den)

/-- Executable rational division; provably equal to the field one. -/
def qDiv (a b : ℚ) : ℚ := Rat.divInt (a.num * b.den) (a.den * b.num)

/-- Executable rational negation; provably equal to the field one. -/
def qNeg (a : ℚ) : ℚ := Rat.divInt (-a.num) a.den

/-! ## Character classes of the regular expressions -/

/-- Character class [0-9]. -/
def isDigitChar (ch : Char) : Bool := ch.isDigit

/-- Character class [0-9A-Za-z\-+_ ] of the name group. -/
def isNameChar (ch : Char) : Bool :=
  ch.isDigit || ch.isUpper || ch.isLower || ch == '-' || ch == '+' || ch == '_' || ch == ' '

/-- Whitespace characters stripped by the Python str.strip method. -/
def isPyWhitespace (ch : Char) : Bool :=
  ch == ' ' || ch == '\t' || ch == '\n' || ch == '\r' || ch == '\x0b' || ch == '\x0c'

/-! ## Backtracking regular-expression matcher

A matcher of type MG alpha consumes a prefix of the input and returns the
list of all (result, rest) candidates in the priority order of the Python
backtracking engine.  The first element of the final candidate list is the
match that re.match returns. -/

/-- Matcher monad: list of (result, remaining input) successes in priority order. -/
def MG (α : Type) : Type := List Char → List (α × List Char)

/-- Result of a matcher without alternatives. -/
def mgPure {α : Type} (a : α) : MG α := fun s => [(a, s)]

/-- Sequencing of matchers; candidate order is the depth-first backtracking order. -/
def mgBind {α β : Type} (m : MG α) (f : α → MG β) : MG β :=
  fun s => (m s).flatMap fun p => f p.1 p.2

/-- Literal text, e.g. the name= and epoch= markers. -/
def mLit (t : List Char) : MG (List Char) :=
  fun s => if t.isPrefixOf s then [(t, s.drop t.length)] else []

/-- Greedy plus of a character class ([...]+): all nonempty splits, longest first. -/
def mPlus (p : Char → Bool) : MG (List Char) :=
  fun s =>
    let n := (s.takeWhile p).length
    ((List.range n).map fun i => n - i).map fun j => (s.take j, s.drop j)

/-- Greedy option ((?:...)? or [...]?): the present alternative is tried first. -/
def mOpt (m : MG (List Char)) : MG (List Char) :=
  fun s => m s ++ [([], s)]

/-- The dot of the pattern: any single character except a newline. -/
def mAny : MG (List Char) :=
  fun s =>
    match s with
    | [] => []
    | ch :: r => if ch = '\n' then [] else [([ch], r)]

/-- Single character out of an explicit set, e.g. [+\-]. -/
def mChar (cs : List Char) : MG (List Char) :=
  fun s =>
    match s with
    | [] => []
    | ch :: r => if cs.contains ch then [([ch], r)] else []

/-- Concatenation inside one captured group. -/
def mSeq (m1 m2 : MG (List Char)) : MG (List Char) :=
  fun s => (m1 s).flatMap fun p => (m2 p.2).map fun q => (p.1 ++ q.1, q.2)

/-- End anchor $ (the modelled lines carry no trailing newline). -/
def mEnd : MG Unit :=
  fun s => if s = [] then [((), [])] else []

/-- Sign [+\-]?. -/
def mSign : MG (List Char) := mOpt (mChar ['+', '-'])

/-- Digit run [0-9]+. -/
def mDigits : MG (List Char) := mPlus isDigitChar

/-- Optional fraction (?:.[0-9]+)? with the unescaped dot of the source. -/
def mFrac : MG (List Char) := mOpt (mSeq mAny mDigits)

/-- Numeric field [+\-]?[0-9]+(?:.[0-9]+)?. -/
def mFloatTok : MG (List Char) := mSeq mSign (mSeq mDigits mFrac)

/-- Sexagesimal token [+\-]?[0-9]+H[0-9]+m[0-9]+(?:.[0-9]+)?s where H is the
letter h for right ascension and d for declination. -/
def mCoordTok (mid : Char) : MG (List Char) :=
  mSeq mSign (mSeq mDigits (mSeq (mLit [mid]) (mSeq mDigits (mSeq (mLit ['m'])
    (mSeq mDigits (mSeq mFrac (mLit ['s'])))))))

/-- Field separator [ ]+ (one or more spaces; tabs are not in the class). -/
def mSpaces : MG (List Char) := mPlus (fun ch => ch == ' ')

/-- Captured groups of the record regular expression, in source order. -/
structure Groups where
  gname : List Char
  gepoch : List Char
  gra : List Char
  gdecl : List Char
  ga : List Char
  gb : List Char
  gc : List Char
  gd : List Char
  deriving DecidableEq

/-- The anchored record pattern
name=(name)[ ]+epoch=(epoch)[ ]+ra=(ra)[ ]+dec=(decl)[ ]+a=(a)[ ]+b=(b)[ ]+c=(c)[ ]+d=(d)$
as one backtracking matcher. -/
def recordChain : MG Groups :=
  mgBind (mLit ("name=".toList)) fun _ =>
  mgBind (mPlus isNameChar) fun nm =>
  mgBind mSpaces fun _ =>
  mgBind (mLit ("epoch=".toList)) fun _ =>
  mgBind mDigits fun ep =>
  mgBind mSpaces fun _ =>
  mgBind (mLit ("ra=".toList)) fun _ =>
  mgBind (mCoordTok 'h') fun ra =>
  mgBind mSpaces fun _ =>
  mgBind (mLit ("dec=".toList)) fun _ =>
  mgBind (mCoordTok 'd') fun de =>
  mgBind mSpaces fun _ =>
  mgBind (mLit ("a=".toList)) fun _ =>
  mgBind mFloatTok fun fa =>
  mgBind mSpaces fun _ =>
  mgBind (mLit ("b=".toList)) fun _ =>
  mgBind mFloatTok fun fb =>
  mgBind mSpaces fun _ =>
  mgBind (mLit ("c=".toList)) fun _ =>
  mgBind mFloatTok fun fc =>
  mgBind mSpaces fun _ =>
  mgBind (mLit ("d=".toList)) fun _ =>
  mgBind mFloatTok fun fd =>
  mgBind mEnd fun _ =>
  mgPure ⟨nm, ep, ra, de, fa, fb, fc, fd⟩

/-- The re.match of the record pattern: groups of the first success, if any. -/
def matchRecordLine (s : List Char) : Option Groups :=
  ((recordChain s).head?).map Prod.fst

/-- The inner anchored coordinate pattern
(sign digits)H(digits)m(digits fraction)s$ returning the three groups. -/
def coordChain (mid : Char) : MG (List Char × List Char × List Char) :=
  mgBind (mSeq mSign mDigits) fun hh =>
  mgBind (mLit [mid]) fun _ =>
  mgBind mDigits fun mm =>
  mgBind (mLit ['m']) fun _ =>
  mgBind (mSeq mDigits mFrac) fun ss =>
  mgBind (mLit ['s']) fun _ =>
  mgBind mEnd fun _ =>
  mgPure (hh, mm, ss)

/-- The re.match of an inner coordinate pattern. -/
def matchCoord (mid : Char) (s : List Char) : Option (List Char × List Char × List Char) :=
  ((coordChain mid s).head?).map Prod.fst

/-! ## Numeric conversions -/

/-- Value of a digit run, as computed by the Python int constructor. -/
def digitsVal (ds : List Char) : ℕ :=
  ds.foldl (fun acc ch => 10 * acc + (ch.toNat - 48)) 0

/-- Python float() restricted to the token shapes reachable from the record
grammar: an optional sign, a nonempty digit run, then optionally one single
marker character (matched by the unescaped dot) followed by a second digit
run.  On these shapes float() succeeds exactly when the marker is a decimal
point, an exponent letter e or E, or an underscore digit separator; every
other marker raises ValueError.  (General float syntax such as inf, nan or
multi-character exponents is unreachable from the grammar.) -/
def pyFloatMag (t : List Char) : Option ℚ :=
  let d1 := t.takeWhile isDigitChar
  let rest := t.drop d1.length
  if d1.isEmpty then none
  else
    match rest with
    | [] => some (Rat.divInt (digitsVal d1) 1)
    | mark :: d2 =>
      if d2.isEmpty || !(d2.all isDigitChar) then none
      else if mark = '.' then
        some (Rat.divInt (digitsVal d1 * 10 ^ d2.length + digitsVal d2) (10 ^ d2.length))
      else if mark = 'e' ∨ mark = 'E' then
        some (Rat.divInt (digitsVal d1 * 10 ^ digitsVal d2) 1)
      else if mark = '_' then
        some (Rat.divInt (digitsVal (d1 ++ d2)) 1)
      else none

/-- Python float() on an optionally signed token (see pyFloatMag). -/
def pyFloat (s : List Char) : Option ℚ :=
  match s with
  | '+' :: r => pyFloatMag r
  | '-' :: r => (pyFloatMag r).map qNeg
  | r => pyFloatMag r

/-! ## Calibrator records -/

/-- Rational core of one calibrator record: the epoch, the right ascension and
declination in degrees as computed at parse time (before np.deg2rad), and the
four MHz coefficients exactly as given in the file.  The stored radian values
and the GHz coefficients are the real-valued views defined below. -/
structure RecordQ where
  epoch : ℕ
  raDeg : ℚ
  declDeg : ℚ
  a : ℚ
  b : ℚ
  c : ℚ
  d : ℚ
  deriving DecidableEq

/-- Degree-to-radian conversion np.deg2rad. -/
noncomputable def deg2rad (x : ℝ) : ℝ := x * Real.pi / 180

/-- The re-basing constant k = np.log10(1000) of read_caltable. -/
noncomputable def kGHz : ℝ := Real.logb 10 1000

/-- Stored right ascension in radians. -/
noncomputable def RecordQ.ra (r : RecordQ) : ℝ := deg2rad (r.raDeg : ℝ)

/-- Stored declination in radians. -/
noncomputable def RecordQ.decl (r : RecordQ) : ℝ := deg2rad (r.declDeg : ℝ)

/-- Stored GHz coefficient ag = a + (b * k) + (c * k ** 2) + (d * k ** 3). -/
noncomputable def RecordQ.aGhz (r : RecordQ) : ℝ :=
  (r.a : ℝ) + (r.b : ℝ) * kGHz + (r.c : ℝ) * kGHz ^ 2 + (r.d : ℝ) * kGHz ^ 3

/-- Stored GHz coefficient bg = b + (2 * c * k) + (3 * d * k ** 2). -/
noncomputable def RecordQ.bGhz (r : RecordQ) : ℝ :=
  (r.b : ℝ) + 2 * (r.c : ℝ) * kGHz + 3 * (r.d : ℝ) * kGHz ^ 2

/-- Stored GHz coefficient cg = c + (3 * d * k). -/
noncomputable def RecordQ.cGhz (r : RecordQ) : ℝ := (r.c : ℝ) + 3 * (r.d : ℝ) * kGHz

/-- Stored GHz coefficient dg = d. -/
noncomputable def RecordQ.dGhz (r : RecordQ) : ℝ := (r.d : ℝ)

/-- The MHz-to-GHz Taylor shift of section 4.1 of the specification, with a
general shift constant k: exactly the four formulas of read_caltable. -/
noncomputable def taylorShift (k a b c d : ℝ) : ℝ × ℝ × ℝ × ℝ :=
  (a + b * k + c * k ^ 2 + d * k ^ 3, b + 2 * c * k + 3 * d * k ^ 2, c + 3 * d * k, d)

/-! ## Line processing and the catalog loop -/

/-- Text before the first comment marker //, as produced by line.split. -/
def beforeComment : List Char → List Char
  | '/' :: '/' :: _ => []
  | ch :: r => ch :: beforeComment r
  | [] => []

/-- Outcome of processing one line of the catalog file. -/
inductive LineOutcome where
  | skip : LineOutcome
  | record : String → RecordQ → LineOutcome
  | formatError : LineOutcome
  | valueError : LineOutcome
  | attributeError : LineOutcome
  deriving DecidableEq

/-- Processing of one line of read_caltable: strip the comment, skip blank
remainders, match the record grammar (RuntimeError on failure), re-match the
coordinate tokens, convert fields with float() (an unhandled ValueError on
failure), and build the record.  The rational degree-domain values are stored;
the radian and GHz values are the real views on RecordQ. -/
def processLine (line : String) : LineOutcome :=
  let command := beforeComment line.toList
  if command.all isPyWhitespace then .skip
  else
    match matchRecordLine command with
    | none => .formatError
    | some g =>
      let ep := digitsVal g.gepoch
      match matchCoord 'h' g.gra with
      | none => .attributeError
      | some (rh, rm, rs) =>
        match pyFloat rh, pyFloat rm, pyFloat rs with
        | some hv, some mv, some sv =>
          let raDeg := qMul (qDiv (qAdd (qAdd hv (qDiv mv 60)) (qDiv sv 3600)) 24) 360
          match matchCoord 'd' g.gdecl with
          | none => .attributeError
          | some (dh, dm, ds) =>
            match pyFloat dh, pyFloat dm, pyFloat ds with
            | some ddv, some dmv, some dsv =>
              let declDeg := qAdd (qAdd ddv dmv) dsv
              match pyFloat g.ga, pyFloat g.gb, pyFloat g.gc, pyFloat g.gd with
              | some av, some bv, some cv, some dv =>
                .record (String.mk g.gname) ⟨ep, raDeg, declDeg, av, bv, cv, dv⟩
              | _, _, _, _ => .valueError
            | _, _, _ => .valueError
        | _, _, _ => .valueError

/-- Python dict assignment calibrator_db[name] = record: an existing key keeps
its position and is overwritten, a new key is appended. -/
def dictInsert (db : List (String × RecordQ)) (n : String) (r : RecordQ) :
    List (String × RecordQ) :=
  if db.any (fun p => p.1 == n) then db.map (fun p => if p.1 == n then (n, r) else p)
  else db ++ [(n, r)]

/-- Result of read_caltable: the catalog, or the exception that aborted it.
The grammar RuntimeError carries the 1-based line number and the raw line. -/
inductive ReadResult where
  | ok : List (String × RecordQ) → ReadResult
  | formatError : ℕ → String → ReadResult
  | valueError : ReadResult
  | attributeError : ReadResult
  deriving DecidableEq

/-- The line loop of read_caltable, with the accumulated dictionary and the
current 1-based line number. -/
def readCaltableFrom (db : List (String × RecordQ)) (lnNo : ℕ) :
    List String → ReadResult
  | [] => .ok db
  | line :: rest =>
    match processLine line with
    | .skip => readCaltableFrom db (lnNo + 1) rest
    | .record n r => readCaltableFrom (dictInsert db n r) (lnNo + 1) rest
    | .formatError => .formatError lnNo line
    | .valueError => .valueError
    | .attributeError => .attributeError

/-- read_caltable on the list of lines of the file. -/
def read_caltable (lines : List String) : ReadResult := readCaltableFrom [] 1 lines

/-- Classification used by the error-reporting claims: a line is bad when its
comment-stripped remainder is non-blank and fails the record grammar. -/
def lineBad (line : String) : Bool :=
  !(beforeComment line.toList).all isPyWhitespace &&
    !(matchRecordLine (beforeComment line.toList)).isSome

/-- Classification of the outcomes after which the loop continues. -/
def LineOutcome.accepted : LineOutcome → Bool
  | .skip => true
  | .record _ _ => true
  | _ => false

/-! ## Formatter -/

/-- One output line of format_calibrator_db.  The fixed-precision float
renderings %3.2f and %.4f are passed in as total rendering functions: decimal
printing of a binary float cannot raise, and no claim depends on the digits. -/
noncomputable def formatEntry (fmt2 fmt4 : ℝ → String) (p : String × RecordQ) : String :=
  "\t" ++ p.1 ++ "\tEpoch:" ++ toString p.2.epoch ++ "\tRA:" ++ fmt2 p.2.ra ++
    "\tDEC:" ++ fmt2 p.2.decl ++ "\ta:" ++ fmt4 p.2.aGhz ++ "\tb:" ++ fmt4 p.2.bGhz ++
    "\tc:" ++ fmt4 p.2.cGhz ++ "\td:" ++ fmt4 p.2.dGhz

/-- The list lines of format_calibrator_db: the seeded blank line followed by
one entry per record in dictionary order. -/
noncomputable def formatLines (fmt2 fmt4 : ℝ → String) (db : List (String × RecordQ)) :
    List String :=
  "" :: db.map (formatEntry fmt2 fmt4)

/-- format_calibrator_db: the newline join of the seeded line list. -/
noncomputable def format_calibrator_db (fmt2 fmt4 : ℝ → String)
    (db : List (String × RecordQ)) : String :=
  String.intercalate "\n" (formatLines fmt2 fmt4 db)

/-! ## Model converter convert_pb_to_casaspi -/

/-- Errors of the model converter: the range guard ValueError and the fit
tolerance assertion. -/
inductive ConvErr where
  | rangeError : ConvErr
  | fitQualityError : ConvErr
  deriving DecidableEq

/-- The range guard of convert_pb_to_casaspi, exactly as in the source:
raise only when vlower > vupper (the strict comparison of the code). -/
noncomputable def convertGuard (vlower vupper : ℝ) : Except ConvErr Unit :=
  if vlower > vupper then .error .rangeError else .ok ()

/-- The Perley-Butler flux law pbspi of the source:
10 ** (a + b * log10 v + c * log10 v ** 2 + d * log10 v ** 3). -/
noncomputable def pbspi (a b c d v : ℝ) : ℝ :=
  (10 : ℝ) ^ (a + b * Real.logb 10 v + c * (Real.logb 10 v) ^ 2 + d * (Real.logb 10 v) ^ 3)

/-- The CASA/Meqtrees flux law casaspi of the source:
I * (v/v0) ** (a + b * log10 (v/v0) + c * log10 (v/v0) ** 2 + d * log10 (v/v0) ** 3). -/
noncomputable def casaspi (v0 I0 a b c d v : ℝ) : ℝ :=
  I0 * (v / v0) ^ (a + b * Real.logb 10 (v / v0) + c * (Real.logb 10 (v / v0)) ^ 2 +
    d * (Real.logb 10 (v / v0)) ^ 3)

/-- Sample i of np.linspace(vlower, vupper, 10000). -/
noncomputable def sampleV (vlower vupper : ℝ) (i : ℕ) : ℝ :=
  vlower + i * (vupper - vlower) / 9999

/-- The least-squares objective that scipy curve_fit minimises over the fitted
coefficients: the sum of squared residuals between casaspi (with I held at
pbspi v0) and pbspi over the 10000 linspace samples.  curve_fit itself is
external library code; its contract (a least-squares minimiser of this
objective) is what the claims about the fit are stated against. -/
noncomputable def fitObjective (vlower vupper v0 a b c d a2 b2 c2 d2 : ℝ) : ℝ :=
  Finset.sum (Finset.range 10000) fun i =>
    (casaspi v0 (pbspi a b c d v0) a2 b2 c2 d2 (sampleV vlower vupper i) -
      pbspi a b c d (sampleV vlower vupper i)) ^ 2

/-- The guarded reference-flux component of convert_pb_to_casaspi: after the
range guard, the first element of the returned tuple is I = pbspi(v0). -/
noncomputable def convertResultI (vlower vupper v0 a b c d : ℝ) : Except ConvErr ℝ :=
  match convertGuard vlower vupper with
  | .error e => .error e
  | .ok _ => .ok (pbspi a b c d v0)

/-! ## Well-formed token shapes (used by the separator claims) -/

/-- Shape of a [+\-]? match. -/
def SignTok (t : List Char) : Prop := t = [] ∨ t = ['+'] ∨ t = ['-']

/-- Shape of a [0-9]+ match. -/
def DigitsTok (t : List Char) : Prop := t ≠ [] ∧ ∀ ch ∈ t, isDigitChar ch = true

/-- Shape of a (?:.[0-9]+)? match. -/
def FracTok (t : List Char) : Prop :=
  t = [] ∨ ∃ mk ds, t = mk :: ds ∧ mk ≠ '\n' ∧ DigitsTok ds

/-- Shape of a numeric field token. -/
def FloatTokP (t : List Char) : Prop :=
  ∃ sg d1 fr, SignTok sg ∧ DigitsTok d1 ∧ FracTok fr ∧ t = sg ++ d1 ++ fr

/-- Shape of a sexagesimal coordinate token with middle letter mid. -/
def CoordTokP (mid : Char) (t : List Char) : Prop :=
  ∃ sg d1 d2 d3 fr, SignTok sg ∧ DigitsTok d1 ∧ DigitsTok d2 ∧ DigitsTok d3 ∧ FracTok fr ∧
    t = sg ++ d1 ++ mid :: (d2 ++ 'm' :: (d3 ++ fr ++ ['s']))

/-- Shape of a name field. -/
def NameTokP (t : List Char) : Prop := t ≠ [] ∧ ∀ ch ∈ t, isNameChar ch = true

/-- Shape of a field separator: one or more spaces. -/
def SpacesTokP (t : List Char) : Prop := t ≠ [] ∧ ∀ ch ∈ t, ch = ' '

/-! ## Theorems: exact rational operations agree with the field operations -/

theorem qAdd_eq (a b : ℚ) : qAdd a b = a + b := by
  rw [qAdd, Rat.add_def, Rat.normalize_eq_mkRat, Rat.divInt_eq_div, Rat.mkRat_eq_div]
  push_cast
  ring

theorem qMul_eq (a b : ℚ) : qMul a b = a * b := by
  rw [qMul, Rat.mul_def, Rat.normalize_eq_mkRat, Rat.divInt_eq_div, Rat.mkRat_eq_div]
  push_cast
  ring

theorem qDiv_eq (a b : ℚ) : qDiv a b = a / b := by
  rcases eq_or_ne b 0 with hb | hb
  · subst hb
    simp [qDiv, Rat.divInt_eq_div]
  · have had : (a.den : ℚ) ≠ 0 := by exact_mod_cast a.den_nz
    have hbd : (b.den : ℚ) ≠ 0 := by exact_mod_cast b.den_nz
    have hbn : (b.num : ℚ) ≠ 0 := by exact_mod_cast Rat.num_ne_zero.mpr hb
    rw [qDiv, Rat.divInt_eq_div]
    conv_rhs => rw [← Rat.num_div_den a, ← Rat.num_div_den b]
    push_cast
    field_simp

theorem qNeg_eq (a : ℚ) : qNeg a = -a := by
  rw [qNeg, Rat.divInt_eq_div]
  push_cast
  rw [neg_div, Rat.num_div_den]

/-! ## Theorems: claims about the catalog parser -/

/-- C1: for every record parsed by read_caltable, the stored GHz coefficients
are exactly the closed-form re-basing of the stored MHz coefficients of the
same record with k = log10(1000): ag = a + b k + c k^2 + d k^3,
bg = b + 2 c k + 3 d k^2, cg = c + 3 d k, dg = d, computed by these formulas
and not derived another way. -/
theorem c1_ghz_rebase (lines : List String) (db : List (String × RecordQ))
    (_hok : read_caltable lines = ReadResult.ok db) :
    ∀ p ∈ db,
      p.2.aGhz = (p.2.a : ℝ) + (p.2.b : ℝ) * Real.logb 10 1000 +
          (p.2.c : ℝ) * (Real.logb 10 1000) ^ 2 + (p.2.d : ℝ) * (Real.logb 10 1000) ^ 3 ∧
      p.2.bGhz = (p.2.b : ℝ) + 2 * (p.2.c : ℝ) * Real.logb 10 1000 +
          3 * (p.2.d : ℝ) * (Real.logb 10 1000) ^ 2 ∧
      p.2.cGhz = (p.2.c : ℝ) + 3 * (p.2.d : ℝ) * Real.logb 10 1000 ∧
      p.2.dGhz = (p.2.d : ℝ) := by
  intro p _
  exact ⟨rfl, rfl, rfl, rfl⟩

/-- Witness for C1 at a concrete one-line catalog. -/
theorem c1_ghz_rebase_witness :
    (("A", (⟨1, Rat.divInt 0 1, Rat.divInt 0 1, 1, 0, 0, 0⟩ : RecordQ)) :
        String × RecordQ).2.aGhz =
        ((1 : ℚ) : ℝ) + ((0 : ℚ) : ℝ) * Real.logb 10 1000 +
          ((0 : ℚ) : ℝ) * (Real.logb 10 1000) ^ 2 +
          ((0 : ℚ) : ℝ) * (Real.logb 10 1000) ^ 3 ∧
      (("A", (⟨1, Rat.divInt 0 1, Rat.divInt 0 1, 1, 0, 0, 0⟩ : RecordQ)) :
        String × RecordQ).2.bGhz =
        ((0 : ℚ) : ℝ) + 2 * ((0 : ℚ) : ℝ) * Real.logb 10 1000 +
          3 * ((0 : ℚ) : ℝ) * (Real.logb 10 1000) ^ 2 ∧
      (("A", (⟨1, Rat.divInt 0 1, Rat.divInt 0 1, 1, 0, 0, 0⟩ : RecordQ)) :
        String × RecordQ).2.cGhz =
        ((0 : ℚ) : ℝ) + 3 * ((0 : ℚ) : ℝ) * Real.logb 10 1000 ∧
      (("A", (⟨1, Rat.divInt 0 1, Rat.divInt 0 1, 1, 0, 0, 0⟩ : RecordQ)) :
        String × RecordQ).2.dGhz = ((0 : ℚ) : ℝ) :=
  c1_ghz_rebase ["name=A epoch=1 ra=0h0m0s dec=0d0m0s a=1 b=0 c=0 d=0"]
    [("A", ⟨1, Rat.divInt 0 1, Rat.divInt 0 1, 1, 0, 0, 0⟩)] (by decide)
    ("A", ⟨1, Rat.divInt 0 1, Rat.divInt 0 1, 1, 0, 0, 0⟩) (by decide)

/-- C2: applying the section 4.1 Taylor shift with k = log10(1000) and then
the same formulas with k replaced by -k reproduces the original MHz
coefficients exactly. -/
theorem c2_taylor_roundtrip (a b c d : ℝ) :
    taylorShift (-(Real.logb 10 1000))
      (taylorShift (Real.logb 10 1000) a b c d).1
      (taylorShift (Real.logb 10 1000) a b c d).2.1
      (taylorShift (Real.logb 10 1000) a b c d).2.2.1
      (taylorShift (Real.logb 10 1000) a b c d).2.2.2 = (a, b, c, d) := by
  simp only [taylorShift, Prod.mk.injEq]
  exact ⟨by ring, by ring, by ring, trivial⟩

/-- C6 (code evaluated at the failing input): the range guard of
convert_pb_to_casaspi does not raise on equal bounds, because the source
compares with the strict vlower > vupper, although its own error message
requires vlower to be lower than vupper; on strictly inverted bounds it does
raise. -/
theorem c6_range_guard_at_equal :
    convertGuard 1 1 = Except.ok () ∧
      convertGuard 2 1 = Except.error ConvErr.rangeError := by
  constructor
  · rw [convertGuard, if_neg (lt_irrefl (1 : ℝ))]
  · rw [convertGuard, if_pos (by norm_num : (2 : ℝ) > 1)]

/-- C9: format_calibrator_db is total (it is a pure function of the catalog
with no error outcome), on the empty catalog it produces the single seeded
blank line and no entries, and in general it produces exactly one line per
record after the leading blank line. -/
theorem c9_format_empty (fmt2 fmt4 : ℝ → String) :
    formatLines fmt2 fmt4 [] = [""] ∧
      format_calibrator_db fmt2 fmt4 [] = "" ∧
      ∀ db, (formatLines fmt2 fmt4 db).length = db.length + 1 := by
  refine ⟨rfl, rfl, ?_⟩
  intro db
  simp [formatLines]

/-- C10: a non-blank, non-comment line whose a field is 1x5 is accepted by the
record grammar, because the unescaped dot of (?:.[0-9]+)? matches the letter
x; the subsequent float() conversion of that field then raises an unhandled
ValueError instead of the line-numbered grammar error. -/
theorem c10_unescaped_dot :
    (beforeComment ("name=A epoch=1 ra=1h2m3s dec=4d5m6s a=1x5 b=2 c=3 d=4").toList).all
        isPyWhitespace = false ∧
      (matchRecordLine
          (beforeComment ("name=A epoch=1 ra=1h2m3s dec=4d5m6s a=1x5 b=2 c=3 d=4").toList)).map
        Groups.ga = some ("1x5".toList) ∧
      pyFloat ("1x5".toList) = none ∧
      processLine "name=A epoch=1 ra=1h2m3s dec=4d5m6s a=1x5 b=2 c=3 d=4" =
        LineOutcome.valueError ∧
      read_caltable ["name=A epoch=1 ra=1h2m3s dec=4d5m6s a=1x5 b=2 c=3 d=4"] =
        ReadResult.valueError := by
  decide

/-- C7 counterexample: the line whose eight fields are separated by single tab
characters is rejected by the grammar (the separator class of the source is
one-or-more spaces only), contrary to the claim that spaces or tabs are
accepted. -/
theorem c7_tab_rejected_cex :
    processLine "name=A\tepoch=1\tra=1h2m3s\tdec=4d5m6s\ta=1\tb=2\tc=3\td=4" =
        LineOutcome.formatError ∧
      read_caltable ["name=A\tepoch=1\tra=1h2m3s\tdec=4d5m6s\ta=1\tb=2\tc=3\td=4"] =
        ReadResult.formatError 1 "name=A\tepoch=1\tra=1h2m3s\tdec=4d5m6s\ta=1\tb=2\tc=3\td=4" := by
  decide

/-- Inversion of processLine: a produced record pins down the matched groups,
the inner coordinate matches, every float() conversion, and the stored
rational values. -/
theorem processLine_record_inv (line : String) (nm : String) (r : RecordQ)
    (h : processLine line = LineOutcome.record nm r) :
    ∃ g rh rm rs hv mv sv dh dm ds dv mv2 sv2 av bv cv dv2,
      matchRecordLine (beforeComment line.toList) = some g ∧
      matchCoord 'h' g.gra = some (rh, rm, rs) ∧
      pyFloat rh = some hv ∧ pyFloat rm = some mv ∧ pyFloat rs = some sv ∧
      matchCoord 'd' g.gdecl = some (dh, dm, ds) ∧
      pyFloat dh = some dv ∧ pyFloat dm = some mv2 ∧ pyFloat ds = some sv2 ∧
      pyFloat g.ga = some av ∧ pyFloat g.gb = some bv ∧ pyFloat g.gc = some cv ∧
      pyFloat g.gd = some dv2 ∧
      nm = String.mk g.gname ∧
      r = ⟨digitsVal g.gepoch,
        qMul (qDiv (qAdd (qAdd hv (qDiv mv 60)) (qDiv sv 3600)) 24) 360,
        qAdd (qAdd dv mv2) sv2, av, bv, cv, dv2⟩ := by
  simp only [processLine] at h
  split at h
  · simp at h
  · split at h
    · simp at h
    · rename_i g hg
      split at h
      · simp at h
      · rename_i rh rm rs hco
        split at h
        · rename_i hv mv sv hhv hmv hsv
          split at h
          · simp at h
          · rename_i dh dm ds hdec
            split at h
            · rename_i dv mv2 sv2 hdv hdmv hdsv
              split at h
              · rename_i av bv cv dv2 hav hbv hcv hdvv
                injection h with h1 h2
                exact ⟨g, rh, rm, rs, hv, mv, sv, dh, dm, ds, dv, mv2, sv2, av, bv, cv, dv2,
                  hg, hco, hhv, hmv, hsv, hdec, hdv, hdmv, hdsv, hav, hbv, hcv, hdvv,
                  h1.symm, h2.symm⟩
              · simp at h
            · simp at h
        · simp at h

/-- C3: for every successfully parsed line the stored declination in radians
is deg2rad(D + M + S): the flat sum of the sexagesimal fields of the dec
token as converted by float() (minutes not divided by 60, seconds not divided
by 3600; only the degree field D carries a sign in the grammar). -/
theorem c3_decl_flat_sum (line : String) (nm : String) (r : RecordQ) (g : Groups)
    (dh dm ds : List Char) (dv mv sv : ℚ)
    (hrec : processLine line = LineOutcome.record nm r)
    (hg : matchRecordLine (beforeComment line.toList) = some g)
    (hco : matchCoord 'd' g.gdecl = some (dh, dm, ds))
    (hdv : pyFloat dh = some dv) (hmv : pyFloat dm = some mv)
    (hsv : pyFloat ds = some sv) :
    r.decl = deg2rad ((dv : ℝ) + (mv : ℝ) + (sv : ℝ)) := by
  obtain ⟨g2, rh2, rm2, rs2, hv2, mv1, sv1, dh2, dm2, ds2, dv2, mv2, sv2, av, bv, cv, dvv,
    hg2, _, _, _, _, hdec2, hdv2, hmv2, hsv2, _, _, _, _, _, hr⟩ :=
    processLine_record_inv line nm r hrec
  rw [hg] at hg2
  injection hg2 with hge
  subst hge
  rw [hco] at hdec2
  injection hdec2 with hde
  simp only [Prod.mk.injEq] at hde
  obtain ⟨rfl, rfl, rfl⟩ := hde
  rw [hdv] at hdv2
  injection hdv2 with he1
  subst he1
  rw [hmv] at hmv2
  injection hmv2 with he2
  subst he2
  rw [hsv] at hsv2
  injection hsv2 with he3
  subst he3
  subst hr
  show deg2rad ((qAdd (qAdd dv mv) sv : ℚ) : ℝ) = _
  rw [qAdd_eq, qAdd_eq]
  push_cast
  rfl

/-- Witness for C3 at a concrete line. -/
theorem c3_decl_flat_sum_witness :
    RecordQ.decl ⟨2, Rat.divInt 1241 80, 93, 1, 2, 3, 4⟩ =
      deg2rad (((30 : ℚ) : ℝ) + ((30 : ℚ) : ℝ) + ((33 : ℚ) : ℝ)) :=
  c3_decl_flat_sum "name=B epoch=2 ra=1h2m3s dec=+30d30m33s a=1 b=2 c=3 d=4" "B"
    ⟨2, Rat.divInt 1241 80, 93, 1, 2, 3, 4⟩
    ⟨"B".toList, "2".toList, "1h2m3s".toList, "+30d30m33s".toList,
      "1".toList, "2".toList, "3".toList, "4".toList⟩
    ("+30".toList) ("30".toList) ("33".toList) 30 30 33
    (by decide) (by decide) (by decide) (by decide) (by decide) (by decide)

/-- C4: for every successfully parsed line the stored right ascension in
radians is deg2rad((h + m/60 + s/3600) / 24 * 360) where h, m, s are the
float() values of the hour, minute and second fields of the ra token; only
the hour field carries a sign in the grammar, and the minute and second
contributions are always added. -/
theorem c4_ra_conversion (line : String) (nm : String) (r : RecordQ) (g : Groups)
    (rh rm rs : List Char) (hv mv sv : ℚ)
    (hrec : processLine line = LineOutcome.record nm r)
    (hg : matchRecordLine (beforeComment line.toList) = some g)
    (hco : matchCoord 'h' g.gra = some (rh, rm, rs))
    (hhv : pyFloat rh = some hv) (hmv : pyFloat rm = some mv)
    (hsv : pyFloat rs = some sv) :
    r.ra = deg2rad (((hv : ℝ) + (mv : ℝ) / 60 + (sv : ℝ) / 3600) / 24 * 360) := by
  obtain ⟨g2, rh2, rm2, rs2, hv2, mv1, sv1, dh2, dm2, ds2, dv2, mv2, sv2, av, bv, cv, dvv,
    hg2, hco2, hhv2, hmv2, hsv2, _, _, _, _, _, _, _, _, _, hr⟩ :=
    processLine_record_inv line nm r hrec
  rw [hg] at hg2
  injection hg2 with hge
  subst hge
  rw [hco] at hco2
  injection hco2 with hce
  simp only [Prod.mk.injEq] at hce
  obtain ⟨rfl, rfl, rfl⟩ := hce
  rw [hhv] at hhv2
  injection hhv2 with he1
  subst he1
  rw [hmv] at hmv2
  injection hmv2 with he2
  subst he2
  rw [hsv] at hsv2
  injection hsv2 with he3
  subst he3
  subst hr
  show deg2rad ((qMul (qDiv (qAdd (qAdd hv (qDiv mv 60)) (qDiv sv 3600)) 24) 360 : ℚ) : ℝ) = _
  rw [qMul_eq, qDiv_eq, qAdd_eq, qAdd_eq, qDiv_eq, qDiv_eq]
  push_cast
  rfl

/-- Witness for C4 at a concrete line with a signed hour field. -/
theorem c4_ra_conversion_witness :
    RecordQ.ra ⟨3, Rat.divInt (-15) 2, 18, 0, 1, 0, 0⟩ =
      deg2rad (((((-1 : ℚ)) : ℝ) + ((30 : ℚ) : ℝ) / 60 + ((0 : ℚ) : ℝ) / 3600) / 24 * 360) :=
  c4_ra_conversion "name=C epoch=3 ra=-1h30m0s dec=5d6m7s a=0 b=1 c=0 d=0" "C"
    ⟨3, Rat.divInt (-15) 2, 18, 0, 1, 0, 0⟩
    ⟨"C".toList, "3".toList, "-1h30m0s".toList, "5d6m7s".toList,
      "0".toList, "1".toList, "0".toList, "0".toList⟩
    ("-1".toList) ("30".toList) ("0".toList) (-1) 30 0
    (by decide) (by decide) (by decide) (by decide) (by decide) (by decide)

/-- A grammar-bad line (non-blank after comment stripping, no regex match)
makes processLine report the grammar error. -/
theorem processLine_formatError_of_lineBad (line : String) (h : lineBad line = true) :
    processLine line = LineOutcome.formatError := by
  simp only [lineBad, Bool.and_eq_true, Bool.not_eq_true'] at h
  obtain ⟨h1, h2⟩ := h
  cases hm : matchRecordLine (beforeComment line.toList) with
  | some g =>
    rw [hm] at h2
    simp at h2
  | none =>
    have h1p : ¬ (∀ x ∈ beforeComment line.toList, isPyWhitespace x = true) := by
      simpa using h1
    simp only [String.toList] at hm h1p
    simp [processLine, hm, h1p]

/-- The line loop aborts with the grammar error of the first bad line when
every earlier line is skipped or produces a record. -/
theorem readFrom_first_bad (bad : String) (rest : List String) :
    ∀ (pre : List String) (db : List (String × RecordQ)) (n : ℕ),
      (∀ l ∈ pre, (processLine l).accepted = true) →
      lineBad bad = true →
      readCaltableFrom db n (pre ++ bad :: rest) = ReadResult.formatError (n + pre.length) bad := by
  intro pre
  induction pre with
  | nil =>
    intro db n _ hbad
    simp [readCaltableFrom, processLine_formatError_of_lineBad bad hbad]
  | cons l pre ih =>
    intro db n hpre hbad
    have hl := hpre l (List.mem_cons_self l pre)
    have htail : ∀ l2 ∈ pre, (processLine l2).accepted = true :=
      fun l2 hm => hpre l2 (List.mem_cons_of_mem l hm)
    show readCaltableFrom db n (l :: (pre ++ bad :: rest)) = _
    rcases hout : processLine l with _ | ⟨nm, r⟩ | _ | _ | _
    · rw [show readCaltableFrom db n (l :: (pre ++ bad :: rest)) =
          readCaltableFrom db (n + 1) (pre ++ bad :: rest) by
        simp [readCaltableFrom, hout]]
      rw [ih db (n + 1) htail hbad]
      congr 1
      simp [List.length_cons]
      omega
    · rw [show readCaltableFrom db n (l :: (pre ++ bad :: rest)) =
          readCaltableFrom (dictInsert db nm r) (n + 1) (pre ++ bad :: rest) by
        simp [readCaltableFrom, hout]]
      rw [ih (dictInsert db nm r) (n + 1) htail hbad]
      congr 1
      simp [List.length_cons]
      omega
    · rw [hout] at hl
      simp [LineOutcome.accepted] at hl
    · rw [hout] at hl
      simp [LineOutcome.accepted] at hl
    · rw [hout] at hl
      simp [LineOutcome.accepted] at hl

/-- C5 (amended): read_caltable fails with the grammar error carrying the
1-based line number and the raw text of the first non-blank, non-comment line
that does not match the record grammar, processing no subsequent lines and
returning no partial catalog, provided every earlier line is either skipped
or parses into a record.  (The proviso is forced by the unescaped-dot flaw:
an earlier grammar-matching line whose float() conversion fails aborts the
parse with a ValueError before the grammar-bad line is reached.) -/
theorem c5_first_bad_line (pre rest : List String) (bad : String)
    (hpre : ∀ l ∈ pre, (processLine l).accepted = true)
    (hbad : lineBad bad = true) :
    read_caltable (pre ++ bad :: rest) = ReadResult.formatError (pre.length + 1) bad := by
  rw [read_caltable, readFrom_first_bad bad rest pre [] 1 hpre hbad]
  congr 1
  omega

/-- Witness for the amended C5: the bad line is the third line, the earlier
lines are a comment and a record, and the trailing lines are not processed. -/
theorem c5_first_bad_line_witness :
    read_caltable ["// header", "name=W epoch=5 ra=0h0m0s dec=0d0m0s a=1 b=1 c=1 d=1",
        "bogus line", "name=Z epoch=9 ra=0h0m0s dec=0d0m0s a=1 b=0 c=0 d=0"] =
      ReadResult.formatError 3 "bogus line" :=
  c5_first_bad_line
    ["// header", "name=W epoch=5 ra=0h0m0s dec=0d0m0s a=1 b=1 c=1 d=1"]
    ["name=Z epoch=9 ra=0h0m0s dec=0d0m0s a=1 b=0 c=0 d=0"] "bogus line"
    (by decide) (by decide)

/-- C5 counterexample to the unamended claim: in this two-line catalog the
only line violating the grammar is line 2, yet read_caltable does not fail
with the grammar error for line 2: line 1 matches the grammar (unescaped
dot) and its float() conversion raises ValueError first. -/
theorem c5_first_bad_line_cex :
    lineBad "name=V epoch=1 ra=2h3m4s dec=5d6m7s a=2x7 b=0 c=0 d=0" = false ∧
      lineBad "not a record" = true ∧
      read_caltable ["name=V epoch=1 ra=2h3m4s dec=5d6m7s a=2x7 b=0 c=0 d=0",
        "not a record"] = ReadResult.valueError := by
  decide

/-! ## Theorems: membership in the backtracking matcher -/

theorem mem_mgBind {α β : Type} (m : MG α) (f : α → MG β) (s : List Char)
    (p : α × List Char) (q : β × List Char)
    (hp : p ∈ m s) (hq : q ∈ f p.1 p.2) : q ∈ mgBind m f s := by
  show q ∈ (m s).flatMap fun p2 => f p2.1 p2.2
  exact List.mem_flatMap.mpr ⟨p, hp, hq⟩

theorem mem_mgPure {α : Type} (a : α) (s : List Char) : (a, s) ∈ mgPure a s := by
  show (a, s) ∈ [(a, s)]
  exact List.mem_singleton.mpr rfl

theorem mem_mLit_self (t r s : List Char) (hs : s = t ++ r) : (t, r) ∈ mLit t s := by
  subst hs
  have hp : t.isPrefixOf (t ++ r) = true :=
    List.isPrefixOf_iff_prefix.mpr (List.prefix_append t r)
  simp [mLit, hp, List.drop_left]

theorem takeWhile_append_all (p : Char → Bool) (t r : List Char)
    (ht : ∀ ch ∈ t, p ch = true) : (t ++ r).takeWhile p = t ++ r.takeWhile p := by
  induction t with
  | nil => simp
  | cons ch t ih =>
    have hch := ht ch (List.mem_cons_self ch t)
    simp [List.takeWhile_cons, hch, ih (fun c2 hc => ht c2 (List.mem_cons_of_mem ch hc))]

theorem mem_mPlus_self (p : Char → Bool) (t r s : List Char) (hne : t ≠ [])
    (ht : ∀ ch ∈ t, p ch = true) (hs : s = t ++ r) : (t, r) ∈ mPlus p s := by
  subst hs
  simp only [mPlus]
  have hn : t.length ≤ ((t ++ r).takeWhile p).length := by
    rw [takeWhile_append_all p t r ht]
    simp
  have hpos : 0 < t.length := List.length_pos.mpr hne
  refine List.mem_map.mpr ⟨t.length, ?_, ?_⟩
  · refine List.mem_map.mpr ⟨((t ++ r).takeWhile p).length - t.length, ?_, ?_⟩
    · refine List.mem_range.mpr ?_
      omega
    · omega
  · rw [List.take_left, List.drop_left]

theorem mem_mSeq (m1 m2 : MG (List Char)) (s : List Char) (p q : List Char × List Char)
    (hp : p ∈ m1 s) (hq : q ∈ m2 p.2) : (p.1 ++ q.1, q.2) ∈ mSeq m1 m2 s := by
  simp only [mSeq]
  exact List.mem_flatMap.mpr ⟨p, hp, List.mem_map.mpr ⟨q, hq, rfl⟩⟩

theorem mem_mOpt_skip (m : MG (List Char)) (s : List Char) : ([], s) ∈ mOpt m s := by
  show ([], s) ∈ m s ++ [([], s)]
  exact List.mem_append.mpr (Or.inr (List.mem_singleton.mpr rfl))

theorem mem_mOpt_take (m : MG (List Char)) (s : List Char) (p : List Char × List Char)
    (hp : p ∈ m s) : p ∈ mOpt m s := by
  show p ∈ m s ++ [([], s)]
  exact List.mem_append.mpr (Or.inl hp)

theorem mem_mChar_self (cs : List Char) (ch : Char) (r : List Char)
    (h : cs.contains ch = true) : ([ch], r) ∈ mChar cs (ch :: r) := by
  simp only [mChar]
  rw [if_pos h]
  exact List.mem_singleton.mpr rfl

theorem mem_mAny_self (ch : Char) (r : List Char) (h : ch ≠ '\n') :
    ([ch], r) ∈ mAny (ch :: r) := by
  simp [mAny, h]

theorem mem_mEnd_self : ((), ([] : List Char)) ∈ mEnd [] := by
  simp [mEnd]

theorem mem_mSign (sg r s : List Char) (h : SignTok sg) (hs : s = sg ++ r) :
    (sg, r) ∈ mSign s := by
  subst hs
  rcases h with h | h | h <;> subst h
  · exact mem_mOpt_skip _ _
  · exact mem_mOpt_take _ _ _ (mem_mChar_self _ _ _ (by decide))
  · exact mem_mOpt_take _ _ _ (mem_mChar_self _ _ _ (by decide))

theorem mem_mDigits (t r s : List Char) (h : DigitsTok t) (hs : s = t ++ r) :
    (t, r) ∈ mDigits s :=
  mem_mPlus_self _ t r s h.1 h.2 hs

theorem mem_mFrac (t r s : List Char) (h : FracTok t) (hs : s = t ++ r) :
    (t, r) ∈ mFrac s := by
  subst hs
  rcases h with h | ⟨mk, ds, hteq, hmk, hds⟩
  · subst h
    exact mem_mOpt_skip _ _
  · subst hteq
    refine mem_mOpt_take _ _ _ ?_
    have h1 : ([mk], ds ++ r) ∈ mAny (mk :: (ds ++ r)) := mem_mAny_self mk _ hmk
    have h2 : (ds, r) ∈ mDigits (ds ++ r) := mem_mDigits ds r _ hds rfl
    exact mem_mSeq mAny mDigits (mk :: (ds ++ r)) ([mk], ds ++ r) (ds, r) h1 h2

theorem mem_mFloatTok (t r s : List Char) (h : FloatTokP t) (hs : s = t ++ r) :
    (t, r) ∈ mFloatTok s := by
  subst hs
  obtain ⟨sg, d1, fr, hsg, hd1, hfr, rfl⟩ := h
  have h2 : (d1 ++ fr, r) ∈ mSeq mDigits mFrac (d1 ++ (fr ++ r)) := by
    have ha := mem_mDigits d1 (fr ++ r) _ hd1 rfl
    have hb := mem_mFrac fr r _ hfr rfl
    exact mem_mSeq mDigits mFrac (d1 ++ (fr ++ r)) (d1, fr ++ r) (fr, r) ha hb
  have h1 := mem_mSign sg ((d1 ++ fr) ++ r) (sg ++ ((d1 ++ fr) ++ r)) hsg rfl
  have h3 := mem_mSeq mSign (mSeq mDigits mFrac) (sg ++ ((d1 ++ fr) ++ r))
    (sg, (d1 ++ fr) ++ r) (d1 ++ fr, r) h1 (by simpa [List.append_assoc] using h2)
  simpa [List.append_assoc] using h3

theorem mem_mCoordTok (mid : Char) (t r s : List Char) (h : CoordTokP mid t)
    (hs : s = t ++ r) : (t, r) ∈ mCoordTok mid s := by
  subst hs
  obtain ⟨sg, d1, d2, d3, fr, hsg, hd1, hd2, hd3, hfr, rfl⟩ := h
  have h8 : (fr ++ ['s'], r) ∈ mSeq mFrac (mLit ['s']) (fr ++ (['s'] ++ r)) := by
    have ha := mem_mFrac fr (['s'] ++ r) _ hfr rfl
    have hb := mem_mLit_self ['s'] r (['s'] ++ r) rfl
    exact mem_mSeq _ _ _ (fr, ['s'] ++ r) (['s'], r) ha hb
  have h7 : (d3 ++ (fr ++ ['s']), r) ∈ mSeq mDigits (mSeq mFrac (mLit ['s']))
      (d3 ++ (fr ++ (['s'] ++ r))) := by
    have ha := mem_mDigits d3 (fr ++ (['s'] ++ r)) _ hd3 rfl
    exact mem_mSeq _ _ _ (d3, fr ++ (['s'] ++ r)) (fr ++ ['s'], r) ha h8
  have h6 : ('m' :: (d3 ++ (fr ++ ['s'])), r) ∈
      mSeq (mLit ['m']) (mSeq mDigits (mSeq mFrac (mLit ['s'])))
      ('m' :: (d3 ++ (fr ++ (['s'] ++ r)))) := by
    have ha := mem_mLit_self ['m'] (d3 ++ (fr ++ (['s'] ++ r))) _ rfl
    exact mem_mSeq _ _ _ (['m'], d3 ++ (fr ++ (['s'] ++ r))) (d3 ++ (fr ++ ['s']), r) ha h7
  have h5 : (d2 ++ ('m' :: (d3 ++ (fr ++ ['s']))), r) ∈
      mSeq mDigits (mSeq (mLit ['m']) (mSeq mDigits (mSeq mFrac (mLit ['s']))))
      (d2 ++ ('m' :: (d3 ++ (fr ++ (['s'] ++ r))))) := by
    have ha := mem_mDigits d2 ('m' :: (d3 ++ (fr ++ (['s'] ++ r)))) _ hd2 rfl
    exact mem_mSeq _ _ _ (d2, 'm' :: (d3 ++ (fr ++ (['s'] ++ r))))
      ('m' :: (d3 ++ (fr ++ ['s'])), r) ha h6
  have h4 : (mid :: (d2 ++ ('m' :: (d3 ++ (fr ++ ['s'])))), r) ∈
      mSeq (mLit [mid]) (mSeq mDigits (mSeq (mLit ['m']) (mSeq mDigits (mSeq mFrac (mLit ['s'])))))
      (mid :: (d2 ++ ('m' :: (d3 ++ (fr ++ (['s'] ++ r)))))) := by
    have ha := mem_mLit_self [mid] (d2 ++ ('m' :: (d3 ++ (fr ++ (['s'] ++ r))))) _ rfl
    exact mem_mSeq _ _ _ ([mid], d2 ++ ('m' :: (d3 ++ (fr ++ (['s'] ++ r)))))
      (d2 ++ ('m' :: (d3 ++ (fr ++ ['s']))), r) ha h5
  have h3 : (d1 ++ (mid :: (d2 ++ ('m' :: (d3 ++ (fr ++ ['s']))))), r) ∈
      mSeq mDigits (mSeq (mLit [mid]) (mSeq mDigits (mSeq (mLit ['m'])
        (mSeq mDigits (mSeq mFrac (mLit ['s']))))))
      (d1 ++ (mid :: (d2 ++ ('m' :: (d3 ++ (fr ++ (['s'] ++ r))))))) := by
    have ha := mem_mDigits d1 (mid :: (d2 ++ ('m' :: (d3 ++ (fr ++ (['s'] ++ r)))))) _ hd1 rfl
    exact mem_mSeq _ _ _ (d1, mid :: (d2 ++ ('m' :: (d3 ++ (fr ++ (['s'] ++ r))))))
      (mid :: (d2 ++ ('m' :: (d3 ++ (fr ++ ['s'])))), r) ha h4
  have h1 := mem_mSign sg ((d1 ++ (mid :: (d2 ++ ('m' :: (d3 ++ (fr ++ ['s'])))))) ++ r)
    (sg ++ ((d1 ++ (mid :: (d2 ++ ('m' :: (d3 ++ (fr ++ ['s'])))))) ++ r)) hsg rfl
  have h0 := mem_mSeq mSign (mSeq mDigits (mSeq (mLit [mid]) (mSeq mDigits (mSeq (mLit ['m'])
      (mSeq mDigits (mSeq mFrac (mLit ['s'])))))))
    (sg ++ ((d1 ++ (mid :: (d2 ++ ('m' :: (d3 ++ (fr ++ ['s'])))))) ++ r))
    (sg, (d1 ++ (mid :: (d2 ++ ('m' :: (d3 ++ (fr ++ ['s'])))))) ++ r)
    (d1 ++ (mid :: (d2 ++ ('m' :: (d3 ++ (fr ++ ['s']))))), r) h1
    (by simpa [List.append_assoc] using h3)
  simpa [mCoordTok, List.append_assoc] using h0

theorem spacesTok_all (t : List Char) (h : SpacesTokP t) : ∀ ch ∈ t, (ch == ' ') = true :=
  fun ch hch => by
    rw [h.2 ch hch]
    rfl

theorem matchRecordLine_isSome_of_mem (s : List Char) (x : Groups × List Char)
    (hx : x ∈ recordChain s) : (matchRecordLine s).isSome = true := by
  have hne : recordChain s ≠ [] := List.ne_nil_of_mem hx
  have hsome : (recordChain s).head?.isSome = true := List.head?_isSome.mpr hne
  rw [matchRecordLine]
  rcases hh : (recordChain s).head? with _ | y
  · rw [hh] at hsome
    simp at hsome
  · simp [hh]

/-- C7 (amended): the record grammar accepts every line whose eight
well-formed fields appear in the fixed order separated by one-or-more
spaces and with no extra trailing text.  (Tabs are not accepted as
separators: the separator class of the source is one-or-more spaces only,
see the tab counterexample.) -/
theorem c7_space_separated (nm ep ra de fa fb fc fd s1 s2 s3 s4 s5 s6 s7 : List Char)
    (hnm : NameTokP nm) (hep : DigitsTok ep)
    (hra : CoordTokP 'h' ra) (hde : CoordTokP 'd' de)
    (hfa : FloatTokP fa) (hfb : FloatTokP fb) (hfc : FloatTokP fc) (hfd : FloatTokP fd)
    (hs1 : SpacesTokP s1) (hs2 : SpacesTokP s2) (hs3 : SpacesTokP s3) (hs4 : SpacesTokP s4)
    (hs5 : SpacesTokP s5) (hs6 : SpacesTokP s6) (hs7 : SpacesTokP s7) :
    (matchRecordLine ("name=".toList ++ (nm ++ (s1 ++ ("epoch=".toList ++ (ep ++ (s2 ++ ("ra=".toList ++ (ra ++ (s3 ++ ("dec=".toList ++ (de ++ (s4 ++ ("a=".toList ++ (fa ++ (s5 ++ ("b=".toList ++ (fb ++ (s6 ++ ("c=".toList ++ (fc ++ (s7 ++ ("d=".toList ++ (fd)))))))))))))))))))))))).isSome = true := by
  apply matchRecordLine_isSome_of_mem _ (⟨nm, ep, ra, de, fa, fb, fc, fd⟩, [])
  unfold recordChain
  refine mem_mgBind _ _ _ ("name=".toList, _) _ (mem_mLit_self _ _ _ rfl) ?_
  refine mem_mgBind _ _ _ (nm, _) _ (mem_mPlus_self _ _ _ _ hnm.1 hnm.2 rfl) ?_
  refine mem_mgBind _ _ _ (s1, _) _ (mem_mPlus_self _ _ _ _ hs1.1 (spacesTok_all _ hs1) rfl) ?_
  refine mem_mgBind _ _ _ ("epoch=".toList, _) _ (mem_mLit_self _ _ _ rfl) ?_
  refine mem_mgBind _ _ _ (ep, _) _ (mem_mDigits _ _ _ hep rfl) ?_
  refine mem_mgBind _ _ _ (s2, _) _ (mem_mPlus_self _ _ _ _ hs2.1 (spacesTok_all _ hs2) rfl) ?_
  refine mem_mgBind _ _ _ ("ra=".toList, _) _ (mem_mLit_self _ _ _ rfl) ?_
  refine mem_mgBind _ _ _ (ra, _) _ (mem_mCoordTok 'h' _ _ _ hra rfl) ?_
  refine mem_mgBind _ _ _ (s3, _) _ (mem_mPlus_self _ _ _ _ hs3.1 (spacesTok_all _ hs3) rfl) ?_
  refine mem_mgBind _ _ _ ("dec=".toList, _) _ (mem_mLit_self _ _ _ rfl) ?_
  refine mem_mgBind _ _ _ (de, _) _ (mem_mCoordTok 'd' _ _ _ hde rfl) ?_
  refine mem_mgBind _ _ _ (s4, _) _ (mem_mPlus_self _ _ _ _ hs4.1 (spacesTok_all _ hs4) rfl) ?_
  refine mem_mgBind _ _ _ ("a=".toList, _) _ (mem_mLit_self _ _ _ rfl) ?_
  refine mem_mgBind _ _ _ (fa, _) _ (mem_mFloatTok _ _ _ hfa rfl) ?_
  refine mem_mgBind _ _ _ (s5, _) _ (mem_mPlus_self _ _ _ _ hs5.1 (spacesTok_all _ hs5) rfl) ?_
  refine mem_mgBind _ _ _ ("b=".toList, _) _ (mem_mLit_self _ _ _ rfl) ?_
  refine mem_mgBind _ _ _ (fb, _) _ (mem_mFloatTok _ _ _ hfb rfl) ?_
  refine mem_mgBind _ _ _ (s6, _) _ (mem_mPlus_self _ _ _ _ hs6.1 (spacesTok_all _ hs6) rfl) ?_
  refine mem_mgBind _ _ _ ("c=".toList, _) _ (mem_mLit_self _ _ _ rfl) ?_
  refine mem_mgBind _ _ _ (fc, _) _ (mem_mFloatTok _ _ _ hfc rfl) ?_
  refine mem_mgBind _ _ _ (s7, _) _ (mem_mPlus_self _ _ _ _ hs7.1 (spacesTok_all _ hs7) rfl) ?_
  refine mem_mgBind _ _ _ ("d=".toList, _) _ (mem_mLit_self _ _ _ rfl) ?_
  refine mem_mgBind _ _ _ (fd, _) _ (mem_mFloatTok _ _ _ hfd (List.append_nil fd).symm) ?_
  refine mem_mgBind _ _ _ (((), ([] : List Char))) _ mem_mEnd_self ?_
  exact mem_mgPure _ _

/-- Witness for the amended C7: a concrete space-separated line (with a
two-space separator after the epoch field) is accepted by the grammar, and
the same line indeed parses into a record. -/
theorem c7_space_separated_witness :
    (matchRecordLine ("name=".toList ++ ("A".toList ++ ([' '] ++ ("epoch=".toList ++ ("1".toList ++ ([' ', ' '] ++ ("ra=".toList ++ ("1h2m3s".toList ++ ([' '] ++ ("dec=".toList ++ ("4d5m6s".toList ++ ([' '] ++ ("a=".toList ++ ("1".toList ++ ([' '] ++ ("b=".toList ++ ("2".toList ++ ([' '] ++ ("c=".toList ++ ("3".toList ++ ([' '] ++ ("d=".toList ++ ("4".toList)))))))))))))))))))))))).isSome = true ∧
      processLine "name=A epoch=1  ra=1h2m3s dec=4d5m6s a=1 b=2 c=3 d=4" =
        LineOutcome.record "A"
          ⟨1, Rat.divInt 1241 80, 15, 1, 2, 3, 4⟩ :=
  ⟨c7_space_separated "A".toList "1".toList "1h2m3s".toList "4d5m6s".toList
    "1".toList "2".toList "3".toList "4".toList
    [' '] [' ', ' '] [' '] [' '] [' '] [' '] [' ']
    ⟨by decide, by decide⟩ ⟨by decide, by decide⟩
    ⟨[], "1".toList, "2".toList, "3".toList, [], Or.inl rfl, ⟨by decide, by decide⟩,
      ⟨by decide, by decide⟩, ⟨by decide, by decide⟩, Or.inl rfl, by decide⟩
    ⟨[], "4".toList, "5".toList, "6".toList, [], Or.inl rfl, ⟨by decide, by decide⟩,
      ⟨by decide, by decide⟩, ⟨by decide, by decide⟩, Or.inl rfl, by decide⟩
    ⟨[], "1".toList, [], Or.inl rfl, ⟨by decide, by decide⟩, Or.inl rfl, by decide⟩
    ⟨[], "2".toList, [], Or.inl rfl, ⟨by decide, by decide⟩, Or.inl rfl, by decide⟩
    ⟨[], "3".toList, [], Or.inl rfl, ⟨by decide, by decide⟩, Or.inl rfl, by decide⟩
    ⟨[], "4".toList, [], Or.inl rfl, ⟨by decide, by decide⟩, Or.inl rfl, by decide⟩
    ⟨by decide, by decide⟩ ⟨by decide, by decide⟩ ⟨by decide, by decide⟩ ⟨by decide, by decide⟩
    ⟨by decide, by decide⟩ ⟨by decide, by decide⟩ ⟨by decide, by decide⟩,
   by decide⟩

/-! ## Theorems: model converter -/

theorem pbspi_flat (v : ℝ) : pbspi 1 0 0 0 v = 10 := by
  simp [pbspi]

theorem casaspi_zero (v0 I0 v : ℝ) : casaspi v0 I0 0 0 0 0 v = I0 := by
  simp [casaspi]

theorem fitObjective_zero_at_zero : fitObjective 1 2 1.5 1 0 0 0 0 0 0 0 = 0 := by
  unfold fitObjective
  refine Finset.sum_eq_zero fun i _ => ?_
  rw [casaspi_zero, pbspi_flat, pbspi_flat]
  norm_num

theorem fitObjective_nonneg (vlower vupper v0 a b c d a2 b2 c2 d2 : ℝ) :
    0 ≤ fitObjective vlower vupper v0 a b c d a2 b2 c2 d2 :=
  Finset.sum_nonneg fun _ _ => sq_nonneg _

theorem rpow_eq_one_imp (x : ℝ) (hx : 0 < x) (hx1 : x ≠ 1) (E : ℝ) (h : x ^ E = 1) :
    E = 0 := by
  have hl : Real.log (x ^ E) = 0 := by rw [h, Real.log_one]
  rw [Real.log_rpow hx] at hl
  rcases mul_eq_zero.mp hl with h1 | h1
  · exact h1
  · rcases Real.log_eq_zero.mp h1 with h2 | h2 | h2
    · exact absurd h2 hx.ne'
    · exact absurd h2 hx1
    · rw [h2] at hx
      norm_num at hx

theorem exponent_zero_of_residual (a2 b2 c2 d2 v : ℝ) (hx : 0 < v / 1.5)
    (hx1 : v / 1.5 ≠ 1)
    (h : casaspi 1.5 (pbspi 1 0 0 0 1.5) a2 b2 c2 d2 v - pbspi 1 0 0 0 v = 0) :
    a2 + b2 * Real.logb 10 (v / 1.5) + c2 * (Real.logb 10 (v / 1.5)) ^ 2 +
      d2 * (Real.logb 10 (v / 1.5)) ^ 3 = 0 := by
  rw [pbspi_flat, pbspi_flat, casaspi] at h
  have hy : (v / 1.5 : ℝ) ^ (a2 + b2 * Real.logb 10 (v / 1.5) +
      c2 * (Real.logb 10 (v / 1.5)) ^ 2 + d2 * (Real.logb 10 (v / 1.5)) ^ 3) = 1 := by
    linarith
  exact rpow_eq_one_imp _ hx hx1 _ hy

theorem cubic_eq_zero (a b c d x1 x2 x3 x4 : ℝ)
    (h12 : x1 ≠ x2) (h13 : x1 ≠ x3) (h14 : x1 ≠ x4) (h23 : x2 ≠ x3) (h24 : x2 ≠ x4)
    (h34 : x3 ≠ x4)
    (e1 : a + b * x1 + c * x1 ^ 2 + d * x1 ^ 3 = 0)
    (e2 : a + b * x2 + c * x2 ^ 2 + d * x2 ^ 3 = 0)
    (e3 : a + b * x3 + c * x3 ^ 2 + d * x3 ^ 3 = 0)
    (e4 : a + b * x4 + c * x4 ^ 2 + d * x4 ^ 3 = 0) :
    a = 0 ∧ b = 0 ∧ c = 0 ∧ d = 0 := by
  have q12 : b + c * (x1 + x2) + d * (x1 ^ 2 + x1 * x2 + x2 ^ 2) = 0 := by
    have hf : (x1 - x2) * (b + c * (x1 + x2) + d * (x1 ^ 2 + x1 * x2 + x2 ^ 2)) = 0 := by
      linear_combination e1 - e2
    rcases mul_eq_zero.mp hf with h | h
    · exact absurd (sub_eq_zero.mp h) h12
    · exact h
  have q23 : b + c * (x2 + x3) + d * (x2 ^ 2 + x2 * x3 + x3 ^ 2) = 0 := by
    have hf : (x2 - x3) * (b + c * (x2 + x3) + d * (x2 ^ 2 + x2 * x3 + x3 ^ 2)) = 0 := by
      linear_combination e2 - e3
    rcases mul_eq_zero.mp hf with h | h
    · exact absurd (sub_eq_zero.mp h) h23
    · exact h
  have q34 : b + c * (x3 + x4) + d * (x3 ^ 2 + x3 * x4 + x4 ^ 2) = 0 := by
    have hf : (x3 - x4) * (b + c * (x3 + x4) + d * (x3 ^ 2 + x3 * x4 + x4 ^ 2)) = 0 := by
      linear_combination e3 - e4
    rcases mul_eq_zero.mp hf with h | h
    · exact absurd (sub_eq_zero.mp h) h34
    · exact h
  have r1 : c + d * (x1 + x2 + x3) = 0 := by
    have hf : (x1 - x3) * (c + d * (x1 + x2 + x3)) = 0 := by
      linear_combination q12 - q23
    rcases mul_eq_zero.mp hf with h | h
    · exact absurd (sub_eq_zero.mp h) h13
    · exact h
  have r2 : c + d * (x2 + x3 + x4) = 0 := by
    have hf : (x2 - x4) * (c + d * (x2 + x3 + x4)) = 0 := by
      linear_combination q23 - q34
    rcases mul_eq_zero.mp hf with h | h
    · exact absurd (sub_eq_zero.mp h) h24
    · exact h
  have hd : d = 0 := by
    have hf : (x1 - x4) * d = 0 := by linear_combination r1 - r2
    rcases mul_eq_zero.mp hf with h | h
    · exact absurd (sub_eq_zero.mp h) h14
    · exact h
  have hc : c = 0 := by linear_combination r1 - (x1 + x2 + x3) * hd
  have hb : b = 0 := by
    linear_combination q12 - (x1 + x2) * hc - (x1 ^ 2 + x1 * x2 + x2 ^ 2) * hd
  have ha : a = 0 := by linear_combination e1 - x1 * hb - x1 ^ 2 * hc - x1 ^ 3 * hd
  exact ⟨ha, hb, hc, hd⟩

/-- C8: after the range guard, the first element of the tuple returned by
convert_pb_to_casaspi is the reference flux S_PB(freq_ref) = pbspi(v0); at
the flat-spectrum input (1.0, 2.0, 1.5, a=1, b=c=d=0) that flux is exactly
10, the all-zero fitted coefficients give the least-squares objective the
value 0, the objective is nonnegative everywhere, and the all-zero vector is
its only zero, so the least-squares fit modelling curve_fit returns
coefficients that are all (approximately) zero. -/
theorem c8_convert_flat_spectrum :
    pbspi 1 0 0 0 1.5 = 10 ∧
      (∀ vl vu v0 a b c d : ℝ, ¬ vl > vu →
        convertResultI vl vu v0 a b c d = Except.ok (pbspi a b c d v0)) ∧
      fitObjective 1 2 1.5 1 0 0 0 0 0 0 0 = 0 ∧
      (∀ a2 b2 c2 d2 : ℝ, 0 ≤ fitObjective 1 2 1.5 1 0 0 0 a2 b2 c2 d2) ∧
      (∀ a2 b2 c2 d2 : ℝ, fitObjective 1 2 1.5 1 0 0 0 a2 b2 c2 d2 = 0 ↔
        a2 = 0 ∧ b2 = 0 ∧ c2 = 0 ∧ d2 = 0) := by
  refine ⟨pbspi_flat 1.5, ?_, fitObjective_zero_at_zero,
    fun a2 b2 c2 d2 => fitObjective_nonneg 1 2 1.5 1 0 0 0 a2 b2 c2 d2, ?_⟩
  · intro vl vu v0 a b c d h
    simp [convertResultI, convertGuard, h]
  · intro a2 b2 c2 d2
    constructor
    · intro h
      unfold fitObjective at h
      have hterm := (Finset.sum_eq_zero_iff_of_nonneg (fun i _ => sq_nonneg _)).mp h
      have g0 := hterm 0 (by norm_num)
      have g1 := hterm 3333 (by norm_num)
      have g2 := hterm 6666 (by norm_num)
      have g3 := hterm 9999 (by norm_num)
      rw [pow_eq_zero_iff (by norm_num : (2 : ℕ) ≠ 0)] at g0 g1 g2 g3
      have hv0 : sampleV 1 2 0 = 1 := by norm_num [sampleV]
      have hv1 : sampleV 1 2 3333 = 4 / 3 := by norm_num [sampleV]
      have hv2 : sampleV 1 2 6666 = 5 / 3 := by norm_num [sampleV]
      have hv3 : sampleV 1 2 9999 = 2 := by norm_num [sampleV]
      rw [hv0] at g0
      rw [hv1] at g1
      rw [hv2] at g2
      rw [hv3] at g3
      have e0 := exponent_zero_of_residual a2 b2 c2 d2 1 (by norm_num) (by norm_num) g0
      have e1 := exponent_zero_of_residual a2 b2 c2 d2 (4 / 3) (by norm_num) (by norm_num) g1
      have e2 := exponent_zero_of_residual a2 b2 c2 d2 (5 / 3) (by norm_num) (by norm_num) g2
      have e3 := exponent_zero_of_residual a2 b2 c2 d2 2 (by norm_num) (by norm_num) g3
      have l01 : Real.logb 10 ((1 : ℝ) / 1.5) < Real.logb 10 ((4 / 3 : ℝ) / 1.5) :=
        Real.logb_lt_logb (by norm_num) (by norm_num) (by norm_num)
      have l12 : Real.logb 10 ((4 / 3 : ℝ) / 1.5) < Real.logb 10 ((5 / 3 : ℝ) / 1.5) :=
        Real.logb_lt_logb (by norm_num) (by norm_num) (by norm_num)
      have l23 : Real.logb 10 ((5 / 3 : ℝ) / 1.5) < Real.logb 10 ((2 : ℝ) / 1.5) :=
        Real.logb_lt_logb (by norm_num) (by norm_num) (by norm_num)
      exact cubic_eq_zero a2 b2 c2 d2 _ _ _ _
        (ne_of_lt l01) (ne_of_lt (l01.trans l12)) (ne_of_lt ((l01.trans l12).trans l23))
        (ne_of_lt l12) (ne_of_lt (l12.trans l23)) (ne_of_lt l23) e0 e1 e2 e3
    · rintro ⟨rfl, rfl, rfl, rfl⟩
      exact fitObjective_zero_at_zero

/-- Witness for C8: the guard-passing call at the flat-spectrum input returns
the reference flux pbspi(1.5) as its first element. -/
theorem c8_convert_flat_spectrum_witness :
    convertResultI 1 2 1.5 1 0 0 0 = Except.ok (pbspi 1 0 0 0 1.5) :=
  c8_convert_flat_spectrum.2.1 1 2 1.5 1 0 0 0 (by norm_num)
